import Mathlib

/-!
# Verification of `src/pycbc.h` (Couchbase Python client, C extension header)

The header defines the data model of the extension (connection, results,
multi-result, exception parameters), its enumerated constants, and the
statement macros for the GIL release protocol and for raising exceptions.
The macros and constants are embedded below as Lean definitions; C pointers
are addresses (`Nat`, with `NULL = 0`), C integers are `Nat` / `Int`.
-/

namespace Pycbc

/-! ## Pointers and the build configuration -/

/-- A C pointer, as an address. -/
abbrev Ptr := Nat

/-- The null pointer. -/
def NULL : Ptr := 0

/-- What the header depends on in the translation unit that includes it. The
unit is taken to define `NDEBUG` on the compiler command line or not at all,
and to process `<assert.h>` only through `<Python.h>`. -/
structure Build where
  /-- `NDEBUG` is defined when the unit starts (for instance `-DNDEBUG`). -/
  defines_NDEBUG : Bool
  /-- The unit includes `<Python.h>` before it includes the header. -/
  python_h_before : Bool
  deriving DecidableEq, Repr

/-- Whether `assert` expands to nothing where the threading macros are used.
The header does not include `<assert.h>` itself: it undefines `NDEBUG` (line 19)
and includes `<Python.h>` (line 26), which includes `<assert.h>` and is
include-guarded. When the header is the first to include `<Python.h>`,
`<assert.h>` is processed with `NDEBUG` undefined and `assert` is live. When the
unit included `<Python.h>` before, line 26 is skipped and `assert` keeps its
earlier definition: compiled out exactly when `NDEBUG` was defined. -/
def assertCompiledOut (b : Build) : Bool := b.defines_NDEBUG && b.python_h_before

/-- Ways in which a run of the macros stops the process instead of returning. -/
inductive Fault where
  /-- `assert(e)` with `e` false: the process aborts. -/
  | assertFailed : Fault
  /-- `Py_FatalError` inside the interpreter. -/
  | pyFatal : Fault
  /-- The thread blocks for ever on a GIL it already holds. -/
  | gilDeadlock : Fault
  deriving DecidableEq, Repr

/-- The `assert` of `<assert.h>`: compiled out when `NDEBUG` is defined,
otherwise it aborts when the condition is false. -/
def c_assert (ndebug : Bool) (cond : Bool) : Except Fault Unit :=
  if ndebug then Except.ok ()
  else if cond then Except.ok ()
  else Except.error Fault.assertFailed

/-! ## The interpreter side of the GIL (CPython, external to the repository) -/

/-- Observable GIL traffic of the calling thread. -/
inductive GilEvent where
  /-- `PyEval_SaveThread` released the GIL and handed out thread state `t`. -/
  | release (t : Ptr) : GilEvent
  /-- `PyEval_RestoreThread(t)` took the GIL back for thread state `t`. -/
  | reacquire (t : Ptr) : GilEvent
  deriving DecidableEq, Repr

/-- The part of the CPython runtime the macros touch, seen from the calling
thread: its current thread state (`NULL` while the thread does not hold the
GIL) and the log of release / reacquire events. -/
structure PyRuntime where
  tstate_current : Ptr
  events : List GilEvent
  deriving DecidableEq, Repr

/-- CPython `PyEval_SaveThread`: swaps the current thread state for `NULL`,
calls `Py_FatalError` if there was none, releases the GIL and returns the old
thread state. -/
def PyEval_SaveThread (py : PyRuntime) : Except Fault (Ptr × PyRuntime) :=
  if py.tstate_current = NULL then Except.error Fault.pyFatal
  else Except.ok (py.tstate_current,
    { tstate_current := NULL
      events := py.events ++ [GilEvent.release py.tstate_current] })

/-- CPython `PyEval_RestoreThread`: calls `Py_FatalError` on a `NULL` argument,
waits for the GIL (for ever, if this thread is the holder) and makes the
argument the current thread state. -/
def PyEval_RestoreThread (tstate : Ptr) (py : PyRuntime) : Except Fault PyRuntime :=
  if tstate = NULL then Except.error Fault.pyFatal
  else if py.tstate_current ≠ NULL then Except.error Fault.gilDeadlock
  else Except.ok
    { tstate_current := tstate
      events := py.events ++ [GilEvent.reacquire tstate] }

/-! ## `pycbc_Connection` and the threading macros (lines 226-266, 546-568) -/

/-- The C struct `pycbc_Connection`. The field `instance` of the source is
`lcb_instance` here (`instance` is reserved). -/
structure pycbc_Connection where
  lcb_instance : Ptr
  tc : Ptr
  dfl_fmt : Ptr
  errors : Ptr
  bucket : Ptr
  thrstate : Ptr
  lock : Ptr
  lockmode : Nat
  quiet : Nat
  unlock_gil : Nat
  data_passthrough : Nat
  init_called : Nat
  nremaining : Int
  flags : Nat
  deriving DecidableEq, Repr

/-- A connection together with the interpreter it runs in. -/
abbrev ThrState := pycbc_Connection × PyRuntime

/-- The macro `PYCBC_CONN_THR_BEGIN(conn)`, with `PYCBC_USE_THREADS` defined
(line 547). -/
def PYCBC_CONN_THR_BEGIN (b : Build) (s : ThrState) : Except Fault ThrState :=
  if s.1.unlock_gil ≠ 0 then
    match c_assert (assertCompiledOut b) (decide (s.1.thrstate = NULL)) with
    | Except.error f => Except.error f
    | Except.ok () =>
      match PyEval_SaveThread s.2 with
      | Except.error f => Except.error f
      | Except.ok (t, py) => Except.ok ({ s.1 with thrstate := t }, py)
  else Except.ok s

/-- The macro `PYCBC_CONN_THR_END(conn)`, with `PYCBC_USE_THREADS` defined. -/
def PYCBC_CONN_THR_END (b : Build) (s : ThrState) : Except Fault ThrState :=
  if s.1.unlock_gil ≠ 0 then
    match c_assert (assertCompiledOut b) (decide (s.1.thrstate ≠ NULL)) with
    | Except.error f => Except.error f
    | Except.ok () =>
      match PyEval_RestoreThread s.1.thrstate s.2 with
      | Except.error f => Except.error f
      | Except.ok py => Except.ok ({ s.1 with thrstate := NULL }, py)
  else Except.ok s

/-- One expansion of a threading macro. -/
inductive ThrMacro where
  | BEGIN : ThrMacro
  | END : ThrMacro
  deriving DecidableEq, Repr

/-- Executes one macro expansion. -/
def thrStep (b : Build) : ThrMacro → ThrState → Except Fault ThrState
  | ThrMacro.BEGIN, s => PYCBC_CONN_THR_BEGIN b s
  | ThrMacro.END, s => PYCBC_CONN_THR_END b s

/-- Executes macro expansions in program order; the first fault ends the run. -/
def thrRun (b : Build) : List ThrMacro → ThrState → Except Fault ThrState
  | [], s => Except.ok s
  | m :: ms, s =>
    match thrStep b m s with
    | Except.error f => Except.error f
    | Except.ok s' => thrRun b ms s'

/-- The macro expansions of one Session call: `PYCBC_CONN_THR_BEGIN`, the wait,
`PYCBC_CONN_THR_END`. -/
def sessionCall : List ThrMacro := [ThrMacro.BEGIN, ThrMacro.END]

/-- The macro expansions of `n` Session calls, one after the other. -/
def sessionCalls : Nat → List ThrMacro
  | 0 => []
  | n + 1 => sessionCall ++ sessionCalls n

/-- Modelled from the spec: the shape of nested Session calls (section 4.5; the
callers of the macros are not in the header). Read at call level, `done` is no
further call and `unit inner next` is a Session call during whose wait the
callbacks `inner` run, followed by the calls `next`. Read at callback level,
`done` is no further callback and `unit inner next` is a callback whose body
makes the Session calls `inner`, followed by the callbacks `next`. -/
inductive Nesting where
  | done : Nesting
  | unit (inner next : Nesting) : Nesting
  deriving DecidableEq, Repr

/-- Modelled from the spec: the macro expansions of nested calls, in program
order (section 4.5). A Session call brackets its wait with
`PYCBC_CONN_THR_BEGIN` ... `PYCBC_CONN_THR_END`; a callback runs during the wait
with the lock held, so it brackets its body with `PYCBC_CONN_THR_END` ...
`PYCBC_CONN_THR_BEGIN`. The flag is `true` at call level. -/
def Nesting.expansions : Bool → Nesting → List ThrMacro
  | _, Nesting.done => []
  | true, Nesting.unit inner next =>
    ThrMacro.BEGIN :: (inner.expansions false ++ ThrMacro.END :: next.expansions true)
  | false, Nesting.unit inner next =>
    ThrMacro.END :: (inner.expansions true ++ ThrMacro.BEGIN :: next.expansions false)

/-- Number of release events in a log. -/
def releases : List GilEvent → Nat
  | [] => 0
  | GilEvent.release _ :: es => releases es + 1
  | GilEvent.reacquire _ :: es => releases es

/-- Number of reacquire events in a log. -/
def reacquires : List GilEvent → Nat
  | [] => 0
  | GilEvent.release _ :: es => reacquires es
  | GilEvent.reacquire _ :: es => reacquires es + 1

/-- Number of `BEGIN` expansions in a program. -/
def countBegin : List ThrMacro → Nat
  | [] => 0
  | ThrMacro.BEGIN :: ms => countBegin ms + 1
  | ThrMacro.END :: ms => countBegin ms

/-- Number of `END` expansions in a program. -/
def countEnd : List ThrMacro → Nat
  | [] => 0
  | ThrMacro.BEGIN :: ms => countEnd ms
  | ThrMacro.END :: ms => countEnd ms + 1

/-- One outstanding token counts as one release not yet reacquired. -/
def debt (conn : pycbc_Connection) : Nat := if conn.thrstate = NULL then 0 else 1

/-- A sample connection: GIL release enabled, no thread state saved. -/
def sampleConn : pycbc_Connection :=
  { lcb_instance := 4096, tc := 0, dfl_fmt := 4200, errors := 0, bucket := 4300,
    thrstate := NULL, lock := 0, lockmode := 0, quiet := 0, unlock_gil := 1,
    data_passthrough := 0, init_called := 1, nremaining := 0, flags := 0 }

/-- A sample interpreter state: the calling thread holds the GIL with thread
state `777`, nothing logged yet. -/
def samplePy : PyRuntime := { tstate_current := 777, events := [] }

/-- The sample connection while another thread's release is pending: thread
state `555` is saved in it. -/
def heldConn : pycbc_Connection := { sampleConn with thrstate := 555 }

/-- A build with `-DNDEBUG` in which the header is the first to include
`<Python.h>`: `assert` is live. -/
def buildHeaderFirst : Build := { defines_NDEBUG := true, python_h_before := false }

/-- A build with `-DNDEBUG` whose unit includes `<Python.h>` before the header:
`assert` is compiled out. -/
def buildPythonFirst : Build := { defines_NDEBUG := true, python_h_before := true }

/-- A build without `NDEBUG`. -/
def buildDebug : Build := { defines_NDEBUG := false, python_h_before := false }

/-! ## Format flags (lines 197-208) -/

/-- Enumerator `PYCBC_FMT_JSON = 0x0`. -/
def PYCBC_FMT_JSON : Nat := 0x0

/-- Enumerator `PYCBC_FMT_PICKLE = 0x1`. -/
def PYCBC_FMT_PICKLE : Nat := 0x1

/-- Enumerator `PYCBC_FMT_BYTES = 0x2`. -/
def PYCBC_FMT_BYTES : Nat := 0x2

/-- Enumerator `PYCBC_FMT_UTF8 = 0x4`. -/
def PYCBC_FMT_UTF8 : Nat := 0x4

/-- Enumerator `PYCBC_FMT_MASK = 0x7`. -/
def PYCBC_FMT_MASK : Nat := 0x7

/-- The format field of a flags word, `w & PYCBC_FMT_MASK`. -/
def formatOf (w : Nat) : Nat := w &&& PYCBC_FMT_MASK

/-! ## Exception kinds, exception parameters and the raising macros
(lines 165-186, 370-412, 636-691) -/

/-- Enumerator `PYCBC_EXC_ARGUMENTS` (first of its enum, value 0). -/
def PYCBC_EXC_ARGUMENTS : Int := 0

/-- Enumerator `PYCBC_EXC_ENCODING`. -/
def PYCBC_EXC_ENCODING : Int := 1

/-- Enumerator `PYCBC_EXC_LCBERR`. -/
def PYCBC_EXC_LCBERR : Int := 2

/-- Enumerator `PYCBC_EXC_INTERNAL`. -/
def PYCBC_EXC_INTERNAL : Int := 3

/-- Enumerator `PYCBC_EXC_HTTP`. -/
def PYCBC_EXC_HTTP : Int := 4

/-- Enumerator `PYCBC_EXC_THREADING`. -/
def PYCBC_EXC_THREADING : Int := 5

/-- The C struct `pycbc_exception_params`. A `const char *` is `none` when
`NULL`; `PyObject *` fields are addresses. -/
structure pycbc_exception_params where
  file : Option String
  line : Int
  err : Int
  msg : Option String
  key : Ptr
  result : Ptr
  all_results : Ptr
  objextra : Ptr
  deriving DecidableEq, Repr

/-- The initializer `= {0}`: every member zero. -/
def pycbc_exception_params_zero : pycbc_exception_params :=
  { file := none, line := 0, err := 0, msg := none,
    key := NULL, result := NULL, all_results := NULL, objextra := NULL }

/-- The macro `PYCBC_EXC_WRAP_EX`. The function `pycbc_exc_wrap_REAL` it calls is
only declared in the header and is a parameter; `file` and `line` are the
`__FILE__` and `__LINE__` of the call site. -/
def PYCBC_EXC_WRAP_EX {α : Type} (pycbc_exc_wrap_REAL : Int → pycbc_exception_params → α)
    (file : String) (line : Int)
    (e_mode e_err : Int) (e_msg : Option String) (e_key e_objextra : Ptr) : α :=
  let ep0 := pycbc_exception_params_zero
  let ep1 := { ep0 with file := some file }
  let ep2 := { ep1 with line := line }
  let ep3 := { ep2 with err := e_err }
  let ep4 := { ep3 with msg := e_msg }
  let ep5 := { ep4 with key := e_key }
  let ep6 := { ep5 with objextra := e_objextra }
  pycbc_exc_wrap_REAL e_mode ep6

/-- The macro `PYCBC_EXC_WRAP(mode, err, msg)`. -/
def PYCBC_EXC_WRAP {α : Type} (pycbc_exc_wrap_REAL : Int → pycbc_exception_params → α)
    (file : String) (line : Int) (mode err : Int) (msg : Option String) : α :=
  PYCBC_EXC_WRAP_EX pycbc_exc_wrap_REAL file line mode err msg NULL NULL

/-- The macro `PYCBC_EXC_WRAP_OBJ(mode, err, msg, obj)`. -/
def PYCBC_EXC_WRAP_OBJ {α : Type} (pycbc_exc_wrap_REAL : Int → pycbc_exception_params → α)
    (file : String) (line : Int) (mode err : Int) (msg : Option String) (obj : Ptr) : α :=
  PYCBC_EXC_WRAP_EX pycbc_exc_wrap_REAL file line mode err msg NULL obj

/-- The macro `PYCBC_EXC_WRAP_KEY(mode, err, msg, key)`. -/
def PYCBC_EXC_WRAP_KEY {α : Type} (pycbc_exc_wrap_REAL : Int → pycbc_exception_params → α)
    (file : String) (line : Int) (mode err : Int) (msg : Option String) (key : Ptr) : α :=
  PYCBC_EXC_WRAP_EX pycbc_exc_wrap_REAL file line mode err msg key NULL

/-- The macro `PYCBC_EXC_WRAP_VALUE`, defined as `PYCBC_EXC_WRAP_KEY`. -/
def PYCBC_EXC_WRAP_VALUE {α : Type} (pycbc_exc_wrap_REAL : Int → pycbc_exception_params → α)
    (file : String) (line : Int) (mode err : Int) (msg : Option String) (key : Ptr) : α :=
  PYCBC_EXC_WRAP_KEY pycbc_exc_wrap_REAL file line mode err msg key

/-- Message of `PYCBC_EXCTHROW_WAIT` (adjacent string literals concatenated). -/
def msg_WAIT : String :=
  "There was a problem while trying to send/receive " ++
  "your request over the network. This may be a result of a " ++
  "bad network or a misconfigured client or server."

/-- Message of `PYCBC_EXCTHROW_SCHED`. -/
def msg_SCHED : String :=
  "There was a problem scheduling your request, or determining " ++
  "the appropriate server or vBucket for the key(s) requested. " ++
  "This may also be a bug in the SDK if there are no network issues."

/-- Message of `PYCBC_EXCTHROW_ARGS`. -/
def msg_ARGS : String := "Bad/insufficient arguments provided."

/-- Message of `PYCBC_EXCTHROW_EMPTYKEY`. -/
def msg_EMPTYKEY : String := "Empty key (i.e. '', empty string) passed"

/-- The macro `PYCBC_EXCTHROW_WAIT(err)`. -/
def PYCBC_EXCTHROW_WAIT {α : Type} (pycbc_exc_wrap_REAL : Int → pycbc_exception_params → α)
    (file : String) (line : Int) (err : Int) : α :=
  PYCBC_EXC_WRAP pycbc_exc_wrap_REAL file line PYCBC_EXC_LCBERR err (some msg_WAIT)

/-- The macro `PYCBC_EXCTHROW_SCHED(err)`. -/
def PYCBC_EXCTHROW_SCHED {α : Type} (pycbc_exc_wrap_REAL : Int → pycbc_exception_params → α)
    (file : String) (line : Int) (err : Int) : α :=
  PYCBC_EXC_WRAP pycbc_exc_wrap_REAL file line PYCBC_EXC_LCBERR err (some msg_SCHED)

/-- The macro `PYCBC_EXCTHROW_ARGS()`. -/
def PYCBC_EXCTHROW_ARGS {α : Type} (pycbc_exc_wrap_REAL : Int → pycbc_exception_params → α)
    (file : String) (line : Int) : α :=
  PYCBC_EXC_WRAP pycbc_exc_wrap_REAL file line PYCBC_EXC_ARGUMENTS 0 (some msg_ARGS)

/-- The macro `PYCBC_EXCTHROW_EMPTYKEY()`. -/
def PYCBC_EXCTHROW_EMPTYKEY {α : Type} (pycbc_exc_wrap_REAL : Int → pycbc_exception_params → α)
    (file : String) (line : Int) : α :=
  PYCBC_EXC_WRAP pycbc_exc_wrap_REAL file line PYCBC_EXC_ARGUMENTS 0 (some msg_EMPTYKEY)

/-- A stand-in for `pycbc_exc_wrap_REAL` that returns its two arguments, so that
the call a macro makes can be inspected. -/
def recordWrap (mode : Int) (p : pycbc_exception_params) : Int × pycbc_exception_params :=
  (mode, p)

/-! ## Results and the multi-result aggregator (lines 280-367, 613-625) -/

/-- libcouchbase status code `LCB_SUCCESS`. -/
def LCB_SUCCESS : Int := 0x00

/-- libcouchbase status code `LCB_KEY_ENOENT` (key not found). -/
def LCB_KEY_ENOENT : Int := 0x0D

/-- A key object, represented by the key string it holds. -/
abbrev Key := String

/-- The C struct `pycbc_Result` (members of `pycbc_Result_HEAD` after the
object header). -/
structure pycbc_Result where
  rc : Int
  key : Key
  deriving DecidableEq, Repr

/-- The C struct `pycbc_MultiResult`. The base dict is an association list,
the `exceptions` list is empty when the pointer is `NULL`, `errop` is `none`
when `NULL`. -/
structure pycbc_MultiResult where
  dict : List (Key × pycbc_Result)
  parent : Ptr
  exceptions : List Ptr
  errop : Option pycbc_Result
  all_ok : Int
  no_raise_enoent : Int
  deriving DecidableEq, Repr

/-- Dict assignment `d[k] = r`: replaces the entry for `k` or adds one. -/
def dictSet : List (Key × pycbc_Result) → Key → pycbc_Result → List (Key × pycbc_Result)
  | [], k, r => [(k, r)]
  | (k', r') :: rest, k, r =>
    if k' = k then (k, r) :: rest else (k', r') :: dictSet rest k r

/-- Dict lookup `d.get(k)`. -/
def dictGet : List (Key × pycbc_Result) → Key → Option pycbc_Result
  | [], _ => none
  | (k', r') :: rest, k => if k' = k then some r' else dictGet rest k

/-- Modelled from the spec: `insert(aggregator, key, result)` of section 4.3,
whose code (the callback adapter) is not in the header. It adds or replaces the
entry; a failure status that is not a suppressed not-found clears `all_ok` and
becomes the operational error when none is recorded yet. -/
def multiresult_insert (agg : pycbc_MultiResult) (key : Key) (result : pycbc_Result) :
    pycbc_MultiResult :=
  let agg1 := { agg with dict := dictSet agg.dict key result }
  if result.rc ≠ LCB_SUCCESS then
    if result.rc = LCB_KEY_ENOENT ∧ agg.no_raise_enoent ≠ 0 then agg1
    else
      { agg1 with
        all_ok := 0
        errop := match agg.errop with
          | none => some result
          | some first => some first }
  else agg1

/-- What `pycbc_multiresult_maybe_raise` raises. -/
inductive RaisedError where
  /-- The first fatal entry is raised, the whole aggregator attached. -/
  | fatal (first : Ptr) (all_results : pycbc_MultiResult) : RaisedError
  /-- An engine error whose implicated result is the operational error. -/
  | operational (result : pycbc_Result) : RaisedError
  deriving DecidableEq, Repr

/-- Modelled from the spec: `maybeRaise(aggregator)` of section 4.3, declared at
line 625 of the header as `pycbc_multiresult_maybe_raise` with its body in a
file that is not part of the sources. It raises when the fatal list is
non-empty (first entry, aggregator attached) or when an operational error is
recorded, and returns normally otherwise. -/
def pycbc_multiresult_maybe_raise (self : pycbc_MultiResult) : Except RaisedError Unit :=
  match self.exceptions with
  | first :: _ => Except.error (RaisedError.fatal first self)
  | [] =>
    match self.errop with
    | some res => Except.error (RaisedError.operational res)
    | none => Except.ok ()

/-- Modelled from the spec: the callback path for one completed operation
(section 2, control flow): a Result carrying the engine status and the key is
allocated and inserted into the aggregator. -/
def deliver (agg : pycbc_MultiResult) (c : Key × Int) : pycbc_MultiResult :=
  multiresult_insert agg c.1 { rc := c.2, key := c.1 }

/-- Modelled from the spec: a batch, as the completions `(key, status)` the
engine delivers, in delivery order. -/
def runBatch (agg : pycbc_MultiResult) (batch : List (Key × Int)) : pycbc_MultiResult :=
  batch.foldl deliver agg

/-- The completions of a batch that carry a failure status. -/
def failures (batch : List (Key × Int)) : List (Key × Int) :=
  batch.filter (fun c => decide (c.2 ≠ LCB_SUCCESS))

/-- A sample aggregator at the start of a batch. -/
def sampleAgg (no_raise_enoent : Int) : pycbc_MultiResult :=
  { dict := [], parent := 4096, exceptions := [], errop := none,
    all_ok := 1, no_raise_enoent := no_raise_enoent }

/-- The batch of the example scenario of the spec: `a`, `missing`, `b`. -/
def sampleBatch : List (Key × Int) :=
  [("a", LCB_SUCCESS), ("missing", LCB_KEY_ENOENT), ("b", LCB_SUCCESS)]

/-! ## Printable-field flags of the result types (lines 431-462) -/

/-- Enumerator `PYCBC_RESFLD_RC = 1 << 0`. -/
def PYCBC_RESFLD_RC : Nat := 1 <<< 0

/-- Enumerator `PYCBC_RESFLD_CAS = 1 << 1`. -/
def PYCBC_RESFLD_CAS : Nat := 1 <<< 1

/-- Enumerator `PYCBC_RESFLD_KEY = 1 << 2`. -/
def PYCBC_RESFLD_KEY : Nat := 1 <<< 2

/-- Enumerator `PYCBC_RESFLD_FLAGS = 1 << 3`. -/
def PYCBC_RESFLD_FLAGS : Nat := 1 <<< 3

/-- Enumerator `PYCBC_RESFLD_HTCODE = 1 << 4`. -/
def PYCBC_RESFLD_HTCODE : Nat := 1 <<< 4

/-- Enumerator `PYCBC_RESFLD_VALUE = 1 << 5`. -/
def PYCBC_RESFLD_VALUE : Nat := 1 <<< 5

/-- Enumerator `PYCBC_RESFLD_URL = 1 << 6`. -/
def PYCBC_RESFLD_URL : Nat := 1 <<< 6

/-- The macro `PYCBC_RESULT_BASEFLDS`. -/
def PYCBC_RESULT_BASEFLDS : Nat := PYCBC_RESFLD_RC

/-- The macro `PYCBC_OPRESULT_BASEFLDS`. -/
def PYCBC_OPRESULT_BASEFLDS : Nat :=
  PYCBC_RESULT_BASEFLDS ||| PYCBC_RESFLD_CAS ||| PYCBC_RESFLD_KEY

/-- The macro `PYCBC_VALRESULT_BASEFLDS`. -/
def PYCBC_VALRESULT_BASEFLDS : Nat :=
  PYCBC_OPRESULT_BASEFLDS ||| PYCBC_RESFLD_VALUE ||| PYCBC_RESFLD_FLAGS

/-- The macro `PYCBC_HTRESULT_BASEFLDS`. -/
def PYCBC_HTRESULT_BASEFLDS : Nat :=
  PYCBC_RESULT_BASEFLDS ||| PYCBC_RESFLD_HTCODE ||| PYCBC_RESFLD_URL ||| PYCBC_RESFLD_VALUE

/-- The seven `PYCBC_RESFLD_*` enumerators, in declaration order. -/
def resfldAll : List Nat :=
  [PYCBC_RESFLD_RC, PYCBC_RESFLD_CAS, PYCBC_RESFLD_KEY, PYCBC_RESFLD_FLAGS,
   PYCBC_RESFLD_HTCODE, PYCBC_RESFLD_VALUE, PYCBC_RESFLD_URL]

/-- Whether a mask has (some bit of) the field flag `f`: the C test `mask & f`. -/
def hasField (mask f : Nat) : Bool := decide (mask &&& f ≠ 0)

/-- The field flags a mask selects, in declaration order. -/
def fieldsOf (mask : Nat) : List Nat := resfldAll.filter (hasField mask)

/-! ## HTTP result flags (lines 302-335) -/

/-- Enumerator `PYCBC_HTRES_F_CHUNKED = 1 << 0`. -/
def PYCBC_HTRES_F_CHUNKED : Nat := 1 <<< 0

/-- Enumerator `PYCBC_HTRES_F_QUIET = 1 << 1`. -/
def PYCBC_HTRES_F_QUIET : Nat := 1 <<< 1

/-- Enumerator `PYCBC_HTRES_F_COMPLETE = 1 << 2`. -/
def PYCBC_HTRES_F_COMPLETE : Nat := 1 <<< 2

/-- The three enumerators of the `PYCBC_HTRES_F_*` enum. -/
inductive HtFlag where
  | Chunked : HtFlag
  | Quiet : HtFlag
  | Complete : HtFlag
  deriving DecidableEq, Repr

/-- The value of an enumerator. -/
def HtFlag.bit : HtFlag → Nat
  | HtFlag.Chunked => PYCBC_HTRES_F_CHUNKED
  | HtFlag.Quiet => PYCBC_HTRES_F_QUIET
  | HtFlag.Complete => PYCBC_HTRES_F_COMPLETE

/-- Bit position of an enumerator, the shift count in its definition. -/
def HtFlag.pos : HtFlag → Nat
  | HtFlag.Chunked => 0
  | HtFlag.Quiet => 1
  | HtFlag.Complete => 2

/-- Width in bits of the member `unsigned short htflags` of `pycbc_HttpResult`. -/
def HTFLAGS_BITS : Nat := 16

/-- Width in bits of `int`, the type of the enumerators and of `~f`. -/
def INT_BITS : Nat := 32

/-- The C test `htflags & f`. -/
def htflags_test (htflags f : Nat) : Bool := decide (htflags &&& f ≠ 0)

/-- The C statement `htflags |= f`: the result is stored back into the
`unsigned short` member. -/
def htflags_set (htflags f : Nat) : Nat := (htflags ||| f) % 2 ^ HTFLAGS_BITS

/-- The C statement `htflags &= ~f`: `~f` is the bit pattern of the complement
of the `int` `f`, and the result is stored back into the `unsigned short`
member. -/
def htflags_clear (htflags f : Nat) : Nat :=
  (htflags &&& (2 ^ INT_BITS - 1 - f)) % 2 ^ HTFLAGS_BITS

/-! ## The threading macros, case by case -/

theorem begin_gil_off (b : Build) (s : ThrState) (hg : s.1.unlock_gil = 0) :
    PYCBC_CONN_THR_BEGIN b s = Except.ok s := by
  simp [PYCBC_CONN_THR_BEGIN, hg]

theorem end_gil_off (b : Build) (s : ThrState) (hg : s.1.unlock_gil = 0) :
    PYCBC_CONN_THR_END b s = Except.ok s := by
  simp [PYCBC_CONN_THR_END, hg]

theorem begin_token_held (b : Build) (s : ThrState) (ha : assertCompiledOut b = false)
    (hg : s.1.unlock_gil ≠ 0) (ht : s.1.thrstate ≠ NULL) :
    PYCBC_CONN_THR_BEGIN b s = Except.error Fault.assertFailed := by
  simp [PYCBC_CONN_THR_BEGIN, hg, c_assert, ha, ht]

theorem begin_no_tstate (b : Build) (s : ThrState) (hg : s.1.unlock_gil ≠ 0)
    (ht : s.1.thrstate = NULL ∨ assertCompiledOut b = true)
    (hc : s.2.tstate_current = NULL) :
    PYCBC_CONN_THR_BEGIN b s = Except.error Fault.pyFatal := by
  rcases ht with ht | ha
  · cases hb : assertCompiledOut b <;>
      simp [PYCBC_CONN_THR_BEGIN, hg, c_assert, hb, ht, PyEval_SaveThread, hc]
  · simp [PYCBC_CONN_THR_BEGIN, hg, c_assert, ha, PyEval_SaveThread, hc]

theorem begin_releases_any (b : Build) (s : ThrState) (hg : s.1.unlock_gil ≠ 0)
    (ht : s.1.thrstate = NULL ∨ assertCompiledOut b = true)
    (hc : s.2.tstate_current ≠ NULL) :
    PYCBC_CONN_THR_BEGIN b s = Except.ok
      ({ s.1 with thrstate := s.2.tstate_current },
       { tstate_current := NULL
         events := s.2.events ++ [GilEvent.release s.2.tstate_current] }) := by
  rcases ht with ht | ha
  · cases hb : assertCompiledOut b <;>
      simp [PYCBC_CONN_THR_BEGIN, hg, c_assert, hb, ht, PyEval_SaveThread, hc]
  · simp [PYCBC_CONN_THR_BEGIN, hg, c_assert, ha, PyEval_SaveThread, hc]

theorem begin_releases (b : Build) (s : ThrState) (hg : s.1.unlock_gil ≠ 0)
    (ht : s.1.thrstate = NULL) (hc : s.2.tstate_current ≠ NULL) :
    PYCBC_CONN_THR_BEGIN b s = Except.ok
      ({ s.1 with thrstate := s.2.tstate_current },
       { tstate_current := NULL
         events := s.2.events ++ [GilEvent.release s.2.tstate_current] }) :=
  begin_releases_any b s hg (Or.inl ht) hc

theorem end_no_token (b : Build) (s : ThrState) (ha : assertCompiledOut b = false)
    (hg : s.1.unlock_gil ≠ 0) (ht : s.1.thrstate = NULL) :
    PYCBC_CONN_THR_END b s = Except.error Fault.assertFailed := by
  simp [PYCBC_CONN_THR_END, hg, c_assert, ha, ht]

theorem end_no_token_unchecked (b : Build) (s : ThrState) (ha : assertCompiledOut b = true)
    (hg : s.1.unlock_gil ≠ 0) (ht : s.1.thrstate = NULL) :
    PYCBC_CONN_THR_END b s = Except.error Fault.pyFatal := by
  simp [PYCBC_CONN_THR_END, hg, c_assert, ha, ht, PyEval_RestoreThread]

theorem end_gil_already_held (b : Build) (s : ThrState) (hg : s.1.unlock_gil ≠ 0)
    (ht : s.1.thrstate ≠ NULL) (hc : s.2.tstate_current ≠ NULL) :
    PYCBC_CONN_THR_END b s = Except.error Fault.gilDeadlock := by
  cases hb : assertCompiledOut b <;>
    simp [PYCBC_CONN_THR_END, hg, c_assert, hb, ht, PyEval_RestoreThread, hc]

theorem end_reacquires (b : Build) (s : ThrState) (hg : s.1.unlock_gil ≠ 0)
    (ht : s.1.thrstate ≠ NULL) (hc : s.2.tstate_current = NULL) :
    PYCBC_CONN_THR_END b s = Except.ok
      ({ s.1 with thrstate := NULL },
       { tstate_current := s.1.thrstate
         events := s.2.events ++ [GilEvent.reacquire s.1.thrstate] }) := by
  cases hb : assertCompiledOut b <;>
    simp [PYCBC_CONN_THR_END, hg, c_assert, hb, ht, PyEval_RestoreThread, hc]

/-- An `END` with no thread state saved never returns, in any build. -/
theorem end_no_token_fatal (b : Build) (s : ThrState) (hg : s.1.unlock_gil ≠ 0)
    (ht : s.1.thrstate = NULL) :
    PYCBC_CONN_THR_END b s =
      Except.error (if assertCompiledOut b then Fault.pyFatal else Fault.assertFailed) := by
  cases hb : assertCompiledOut b
  · simpa using end_no_token b s hb hg ht
  · simpa using end_no_token_unchecked b s hb hg ht

/-- Inversion of a `BEGIN` that returns: the thread held the GIL, and either no
thread state was saved or the assertion was compiled out. -/
theorem begin_ok_inv (b : Build) (s s' : ThrState)
    (h : PYCBC_CONN_THR_BEGIN b s = Except.ok s') :
    (s.1.unlock_gil = 0 ∧ s' = s) ∨
    (s.1.unlock_gil ≠ 0 ∧ (s.1.thrstate = NULL ∨ assertCompiledOut b = true) ∧
      s.2.tstate_current ≠ NULL ∧
      s' = ({ s.1 with thrstate := s.2.tstate_current },
            { tstate_current := NULL
              events := s.2.events ++ [GilEvent.release s.2.tstate_current] })) := by
  by_cases hg : s.1.unlock_gil = 0
  · rw [begin_gil_off b s hg] at h
    exact Or.inl ⟨hg, (Except.ok.inj h).symm⟩
  · have key : ∀ ht : s.1.thrstate = NULL ∨ assertCompiledOut b = true,
        s.1.unlock_gil ≠ 0 ∧ (s.1.thrstate = NULL ∨ assertCompiledOut b = true) ∧
        s.2.tstate_current ≠ NULL ∧
        s' = ({ s.1 with thrstate := s.2.tstate_current },
              { tstate_current := NULL
                events := s.2.events ++ [GilEvent.release s.2.tstate_current] }) := by
      intro ht
      by_cases hc : s.2.tstate_current = NULL
      · rw [begin_no_tstate b s hg ht hc] at h
        cases h
      · rw [begin_releases_any b s hg ht hc] at h
        exact ⟨hg, ht, hc, (Except.ok.inj h).symm⟩
    by_cases ht : s.1.thrstate = NULL
    · exact Or.inr (key (Or.inl ht))
    · by_cases ha : assertCompiledOut b = true
      · exact Or.inr (key (Or.inr ha))
      · rw [begin_token_held b s (Bool.eq_false_iff.mpr ha) hg ht] at h
        cases h

/-- Inversion of an `END` that returns. -/
theorem end_ok_inv (b : Build) (s s' : ThrState)
    (h : PYCBC_CONN_THR_END b s = Except.ok s') :
    (s.1.unlock_gil = 0 ∧ s' = s) ∨
    (s.1.unlock_gil ≠ 0 ∧ s.1.thrstate ≠ NULL ∧ s.2.tstate_current = NULL ∧
      s' = ({ s.1 with thrstate := NULL },
            { tstate_current := s.1.thrstate
              events := s.2.events ++ [GilEvent.reacquire s.1.thrstate] })) := by
  by_cases hg : s.1.unlock_gil = 0
  · rw [end_gil_off b s hg] at h
    exact Or.inl ⟨hg, (Except.ok.inj h).symm⟩
  · by_cases ht : s.1.thrstate = NULL
    · rw [end_no_token_fatal b s hg ht] at h
      cases h
    · by_cases hc : s.2.tstate_current = NULL
      · rw [end_reacquires b s hg ht hc] at h
        exact Or.inr ⟨hg, ht, hc, (Except.ok.inj h).symm⟩
      · rw [end_gil_already_held b s hg ht hc] at h
        cases h

theorem thrRun_cons_ok (b : Build) (m : ThrMacro) (ms : List ThrMacro) (s s' : ThrState)
    (h : thrRun b (m :: ms) s = Except.ok s') :
    ∃ s1, thrStep b m s = Except.ok s1 ∧ thrRun b ms s1 = Except.ok s' := by
  simp only [thrRun] at h
  cases hs : thrStep b m s with
  | error f => rw [hs] at h; cases h
  | ok s1 => rw [hs] at h; exact ⟨s1, rfl, h⟩

theorem thrRun_append_ok (b : Build) (xs ys : List ThrMacro) (s s1 : ThrState)
    (h : thrRun b xs s = Except.ok s1) :
    thrRun b (xs ++ ys) s = thrRun b ys s1 := by
  induction xs generalizing s with
  | nil => simp only [thrRun] at h; cases h; rfl
  | cons m ms ih =>
    obtain ⟨s2, h1, h2⟩ := thrRun_cons_ok b m ms s s1 h
    simp only [List.cons_append, thrRun, h1]
    exact ih s2 h2

theorem debt_of_null (conn : pycbc_Connection) (h : conn.thrstate = NULL) : debt conn = 0 := by
  simp [debt, h]

theorem debt_of_held (conn : pycbc_Connection) (h : conn.thrstate ≠ NULL) : debt conn = 1 := by
  simp [debt, h]

/-- The trace of any run that returns, from a state in which a saved thread
state means that the thread has released the GIL: only `thrstate` changes in the
connection, events are only appended, a reacquire never outruns the releases
(up to the token outstanding at the start), and releases and reacquires
balance up to the tokens outstanding at both ends. -/
theorem thrRun_trace (b : Build) (ops : List ThrMacro) :
    ∀ (s s' : ThrState), (s.1.thrstate ≠ NULL → s.2.tstate_current = NULL) →
      thrRun b ops s = Except.ok s' →
      s'.1 = { s.1 with thrstate := s'.1.thrstate } ∧
      (s.1.unlock_gil = 0 → s' = s) ∧
      (s.1.unlock_gil ≠ 0 → countBegin ops + debt s.1 = countEnd ops + debt s'.1) ∧
      ∃ es, s'.2.events = s.2.events ++ es ∧
        (∀ k, reacquires (es.take k) ≤ releases (es.take k) + debt s.1) ∧
        releases es + debt s.1 = reacquires es + debt s'.1 := by
  induction ops with
  | nil =>
    intro s s' _ h
    simp only [thrRun] at h
    cases h
    refine ⟨rfl, fun _ => rfl, fun _ => rfl, [], by simp, ?_, rfl⟩
    intro k
    simp [releases, reacquires]
  | cons m ms ih =>
    intro s s' hinv h
    obtain ⟨s1, h1, h2⟩ := thrRun_cons_ok b m ms s s' h
    cases m with
    | BEGIN =>
      rcases begin_ok_inv b s s1 h1 with ⟨hg, rfl⟩ | ⟨hg, _, hcur, rfl⟩
      · obtain ⟨hc, hoff, hcnt, es, hes, hpre, hbal⟩ := ih s1 s' hinv h2
        exact ⟨hc, hoff, fun hg' => absurd hg hg', es, hes, hpre, hbal⟩
      · have ht : s.1.thrstate = NULL := by
          by_contra hne
          exact hcur (hinv hne)
        obtain ⟨hc, hoff, hcnt, es, hes, hpre, hbal⟩ := ih _ s' (fun _ => rfl) h2
        have hd : debt s.1 = 0 := debt_of_null s.1 ht
        have hd1 : debt ({ s.1 with thrstate := s.2.tstate_current } : pycbc_Connection) = 1 :=
          debt_of_held _ hcur
        simp only at hc hoff hcnt hes hpre hbal
        rw [hd1] at hpre hbal
        refine ⟨hc, fun hg' => absurd hg' hg, ?_, GilEvent.release s.2.tstate_current :: es,
          ?_, ?_, ?_⟩
        · intro _
          have := hcnt hg
          rw [hd1] at this
          simp only [countBegin, countEnd, hd]
          omega
        · rw [hes]; simp
        · intro k
          cases k with
          | zero => simp [releases, reacquires]
          | succ k =>
            have := hpre k
            simp only [List.take_succ_cons, releases, reacquires, hd]
            omega
        · simp only [releases, reacquires, hd]
          omega
    | END =>
      rcases end_ok_inv b s s1 h1 with ⟨hg, rfl⟩ | ⟨hg, ht, hcur, rfl⟩
      · obtain ⟨hc, hoff, hcnt, es, hes, hpre, hbal⟩ := ih s1 s' hinv h2
        exact ⟨hc, hoff, fun hg' => absurd hg hg', es, hes, hpre, hbal⟩
      · obtain ⟨hc, hoff, hcnt, es, hes, hpre, hbal⟩ :=
          ih _ s' (fun hne => absurd rfl hne) h2
        have hd : debt s.1 = 1 := debt_of_held s.1 ht
        have hd1 : debt ({ s.1 with thrstate := NULL } : pycbc_Connection) = 0 :=
          debt_of_null _ rfl
        simp only at hc hoff hcnt hes hpre hbal
        rw [hd1] at hpre hbal
        refine ⟨hc, fun hg' => absurd hg' hg, ?_, GilEvent.reacquire s.1.thrstate :: es,
          ?_, ?_, ?_⟩
        · intro _
          have := hcnt hg
          rw [hd1] at this
          simp only [countBegin, countEnd, hd]
          omega
        · rw [hes]; simp
        · intro k
          cases k with
          | zero => simp [releases, reacquires]
          | succ k =>
            have := hpre k
            simp only [List.take_succ_cons, releases, reacquires, hd]
            omega
        · simp only [releases, reacquires, hd]
          omega

/-- `BEGIN` followed by `END` on an idle connection of a thread that holds the
GIL: both return, and the connection is as before. -/
theorem begin_then_end (b : Build) (conn : pycbc_Connection) (py : PyRuntime)
    (hg : conn.unlock_gil ≠ 0) (ht : conn.thrstate = NULL) (hc : py.tstate_current ≠ NULL) :
    PYCBC_CONN_THR_BEGIN b (conn, py) = Except.ok
      ({ conn with thrstate := py.tstate_current },
       { tstate_current := NULL
         events := py.events ++ [GilEvent.release py.tstate_current] }) ∧
    PYCBC_CONN_THR_END b
      ({ conn with thrstate := py.tstate_current },
       { tstate_current := NULL
         events := py.events ++ [GilEvent.release py.tstate_current] }) =
      Except.ok (conn,
       { tstate_current := py.tstate_current
         events := py.events ++
           [GilEvent.release py.tstate_current, GilEvent.reacquire py.tstate_current] }) := by
  refine ⟨begin_releases b (conn, py) hg ht hc, ?_⟩
  rw [end_reacquires b _ hg hc rfl]
  cases conn
  simp only at ht
  subst ht
  simp

theorem sessionCall_run (b : Build) (conn : pycbc_Connection) (py : PyRuntime)
    (hg : conn.unlock_gil ≠ 0) (ht : conn.thrstate = NULL) (hc : py.tstate_current ≠ NULL) :
    thrRun b sessionCall (conn, py) = Except.ok (conn,
       { tstate_current := py.tstate_current
         events := py.events ++
           [GilEvent.release py.tstate_current, GilEvent.reacquire py.tstate_current] }) := by
  obtain ⟨h1, h2⟩ := begin_then_end b conn py hg ht hc
  simp only [sessionCall, thrRun, thrStep, h1, h2]

theorem sessionCalls_run (b : Build) (conn : pycbc_Connection)
    (hg : conn.unlock_gil ≠ 0) (ht : conn.thrstate = NULL) (n : Nat) :
    ∀ py : PyRuntime, py.tstate_current ≠ NULL →
      ∃ es, thrRun b (sessionCalls n) (conn, py) =
          Except.ok (conn, { py with events := py.events ++ es }) ∧
        releases es = n ∧ reacquires es = n := by
  induction n with
  | zero =>
    intro py _
    exact ⟨[], by simp [sessionCalls, thrRun], rfl, rfl⟩
  | succ n ih =>
    intro py hc
    obtain ⟨es, hrun, hrel, hreq⟩ := ih
      { tstate_current := py.tstate_current
        events := py.events ++
          [GilEvent.release py.tstate_current, GilEvent.reacquire py.tstate_current] } hc
    refine ⟨GilEvent.release py.tstate_current :: GilEvent.reacquire py.tstate_current :: es,
      ?_, ?_, ?_⟩
    · simp only [sessionCalls]
      rw [thrRun_append_ok b sessionCall (sessionCalls n) _ _ (sessionCall_run b conn py hg ht hc),
        hrun]
      simp
    · simp only [releases, hrel]
    · simp only [reacquires, hreq]

theorem thrRun_begin_cons (b : Build) (ms : List ThrMacro) (s : ThrState)
    (hg : s.1.unlock_gil ≠ 0) (ht : s.1.thrstate = NULL) (hc : s.2.tstate_current ≠ NULL) :
    thrRun b (ThrMacro.BEGIN :: ms) s = thrRun b ms
      ({ s.1 with thrstate := s.2.tstate_current },
       { tstate_current := NULL
         events := s.2.events ++ [GilEvent.release s.2.tstate_current] }) := by
  simp only [thrRun, thrStep, begin_releases b s hg ht hc]

theorem thrRun_end_cons (b : Build) (ms : List ThrMacro) (s : ThrState)
    (hg : s.1.unlock_gil ≠ 0) (ht : s.1.thrstate ≠ NULL) (hc : s.2.tstate_current = NULL) :
    thrRun b (ThrMacro.END :: ms) s = thrRun b ms
      ({ s.1 with thrstate := NULL },
       { tstate_current := s.1.thrstate
         events := s.2.events ++ [GilEvent.reacquire s.1.thrstate] }) := by
  simp only [thrRun, thrStep, end_reacquires b s hg ht hc]

/-- Nested calls return. At call level the run starts and ends with the lock
held and no thread state saved; at callback level it starts and ends with the
lock released and the thread state saved. The connection and the current
thread state are as before; events are appended. -/
theorem nested_run (b : Build) (n : Nesting) :
    (∀ (conn : pycbc_Connection) (py : PyRuntime), conn.unlock_gil ≠ 0 →
      conn.thrstate = NULL → py.tstate_current ≠ NULL →
      ∃ es, thrRun b (n.expansions true) (conn, py) =
        Except.ok (conn, { py with events := py.events ++ es })) ∧
    (∀ (conn : pycbc_Connection) (py : PyRuntime), conn.unlock_gil ≠ 0 →
      conn.thrstate ≠ NULL → py.tstate_current = NULL →
      ∃ es, thrRun b (n.expansions false) (conn, py) =
        Except.ok (conn, { py with events := py.events ++ es })) := by
  induction n with
  | done =>
    constructor <;> intro conn py _ _ _ <;> exact ⟨[], by simp [Nesting.expansions, thrRun]⟩
  | unit inner next ihI ihN =>
    constructor
    · intro conn py hg ht hc
      obtain ⟨es1, h1⟩ := ihI.2 { conn with thrstate := py.tstate_current }
        { tstate_current := NULL
          events := py.events ++ [GilEvent.release py.tstate_current] } hg hc rfl
      obtain ⟨es2, h2⟩ := ihN.1 conn
        { tstate_current := py.tstate_current
          events := py.events ++ [GilEvent.release py.tstate_current] ++ es1 ++
            [GilEvent.reacquire py.tstate_current] } hg ht hc
      refine ⟨GilEvent.release py.tstate_current :: (es1 ++
        GilEvent.reacquire py.tstate_current :: es2), ?_⟩
      simp only [Nesting.expansions]
      rw [thrRun_begin_cons b _ (conn, py) hg ht hc, thrRun_append_ok b _ _ _ _ h1,
        thrRun_end_cons b _ _ hg hc rfl]
      have hconn : ({ ({ conn with thrstate := py.tstate_current } : pycbc_Connection) with
          thrstate := NULL } : pycbc_Connection) = conn := by
        cases conn
        simp only at ht
        subst ht
        rfl
      simp only [hconn]
      rw [h2]
      simp
    · intro conn py hg ht hc
      obtain ⟨es1, h1⟩ := ihI.1 { conn with thrstate := NULL }
        { tstate_current := conn.thrstate
          events := py.events ++ [GilEvent.reacquire conn.thrstate] } hg rfl ht
      obtain ⟨es2, h2⟩ := ihN.2 conn
        { tstate_current := NULL
          events := py.events ++ [GilEvent.reacquire conn.thrstate] ++ es1 ++
            [GilEvent.release conn.thrstate] } hg ht rfl
      refine ⟨GilEvent.reacquire conn.thrstate :: (es1 ++
        GilEvent.release conn.thrstate :: es2), ?_⟩
      simp only [Nesting.expansions]
      rw [thrRun_end_cons b _ (conn, py) hg ht hc, thrRun_append_ok b _ _ _ _ h1,
        thrRun_begin_cons b _ _ hg rfl ht]
      have hconn : ({ ({ conn with thrstate := NULL } : pycbc_Connection) with
          thrstate := conn.thrstate } : pycbc_Connection) = conn := by
        cases conn
        rfl
      simp only [hconn]
      rw [h2]
      cases py
      simp only at hc
      subst hc
      simp

/-! ## The lock-release protocol: claims -/

/-- C1 (lock-release balance). On a connection with `unlock_gil` set and no
thread state saved, used by a thread that holds the GIL. (1) For every `N`, the
`N` Session calls in sequence (each `PYCBC_CONN_THR_BEGIN`, wait,
`PYCBC_CONN_THR_END`) all return, leave the connection as it was, and log `N`
releases and `N` reacquires. (2) Session calls nested to any depth through the
callbacks of their waits all return and leave the connection as it was, with as
many releases as reacquires. (3) For every sequence of `BEGIN` / `END`
expansions that returns, whatever its shape, no prefix of the logged events has
more reacquires than releases, and the two counts are equal when the run ends
with no thread state saved. In (1) and (2) too, no prefix of the log has more
reacquires than releases. -/
theorem lock_release_balance (b : Build) (conn : pycbc_Connection) (py : PyRuntime)
    (hgil : conn.unlock_gil ≠ 0) (hidle : conn.thrstate = NULL)
    (hheld : py.tstate_current ≠ NULL) :
    (∀ N : Nat, ∃ es,
        thrRun b (sessionCalls N) (conn, py) =
          Except.ok (conn, { py with events := py.events ++ es }) ∧
        releases es = N ∧ reacquires es = N ∧ releases es = reacquires es ∧
        ∀ k, reacquires (es.take k) ≤ releases (es.take k)) ∧
    (∀ n : Nesting, ∃ es,
        thrRun b (n.expansions true) (conn, py) =
          Except.ok (conn, { py with events := py.events ++ es }) ∧
        releases es = reacquires es ∧
        ∀ k, reacquires (es.take k) ≤ releases (es.take k)) ∧
    (∀ (ops : List ThrMacro) (conn' : pycbc_Connection) (py' : PyRuntime),
        thrRun b ops (conn, py) = Except.ok (conn', py') →
        ∃ es, py'.events = py.events ++ es ∧
          (∀ k, reacquires (es.take k) ≤ releases (es.take k)) ∧
          (conn'.thrstate = NULL → releases es = reacquires es)) := by
  have general : ∀ (ops : List ThrMacro) (conn' : pycbc_Connection) (py' : PyRuntime),
      thrRun b ops (conn, py) = Except.ok (conn', py') →
      ∃ es, py'.events = py.events ++ es ∧
        (∀ k, reacquires (es.take k) ≤ releases (es.take k)) ∧
        (conn'.thrstate = NULL → releases es = reacquires es) := by
    intro ops conn' py' hrun
    obtain ⟨_, _, _, es, hes, hpre, hbal⟩ :=
      thrRun_trace b ops (conn, py) (conn', py') (fun hne => absurd hidle hne) hrun
    have hd : debt conn = 0 := debt_of_null conn hidle
    simp only [hd, Nat.add_zero] at hpre hbal
    refine ⟨es, hes, hpre, ?_⟩
    intro hn
    rw [debt_of_null conn' hn] at hbal
    exact hbal
  refine ⟨?_, ?_, general⟩
  · intro N
    obtain ⟨es, hrun, hrel, hreq⟩ := sessionCalls_run b conn hgil hidle N py hheld
    obtain ⟨es', hes', hpre, _⟩ := general (sessionCalls N) conn _ hrun
    have : es' = es := by
      simp only at hes'
      exact (List.append_cancel_left hes').symm
    subst this
    exact ⟨es', hrun, hrel, hreq, by rw [hrel, hreq], hpre⟩
  · intro n
    obtain ⟨es, hrun⟩ := (nested_run b n).1 conn py hgil hidle hheld
    obtain ⟨es', hes', hpre, hbal⟩ := general (n.expansions true) conn _ hrun
    have : es' = es := by
      simp only at hes'
      exact (List.append_cancel_left hes').symm
    subst this
    exact ⟨es', hrun, hbal hidle, hpre⟩

/-- Witness for C1: the sample connection, in the build with `assert` compiled
out; three Session calls in sequence. -/
theorem lock_release_balance_witness :
    sampleConn.unlock_gil ≠ 0 ∧ sampleConn.thrstate = NULL ∧
    samplePy.tstate_current ≠ NULL ∧
    ∃ es,
      thrRun buildPythonFirst (sessionCalls 3) (sampleConn, samplePy) =
        Except.ok (sampleConn, { samplePy with events := samplePy.events ++ es }) ∧
      releases es = 3 ∧ reacquires es = 3 ∧ releases es = reacquires es ∧
      ∀ k, reacquires (es.take k) ≤ releases (es.take k) :=
  ⟨by decide, by decide, by decide,
    (lock_release_balance buildPythonFirst sampleConn samplePy (by decide) (by decide) (by decide)).1 3⟩

/-- C3 (the token is held only during a release). From a connection with no
thread state saved, after any sequence of `BEGIN` / `END` expansions that
returns: a thread state is saved only if `unlock_gil` is set and the sequence has
one `BEGIN` more than it has `END`s (and with `unlock_gil` set and as many
`END`s as `BEGIN`s none is saved); `unlock_gil` is never changed; with
`unlock_gil` clear the whole run changes neither the connection nor the
interpreter, and each macro alone returns its input state. -/
theorem token_held_only_during_release (b : Build) (ops : List ThrMacro)
    (conn conn' : pycbc_Connection) (py py' : PyRuntime)
    (hidle : conn.thrstate = NULL)
    (hrun : thrRun b ops (conn, py) = Except.ok (conn', py')) :
    (conn'.thrstate ≠ NULL → conn'.unlock_gil ≠ 0 ∧ countBegin ops = countEnd ops + 1) ∧
    (conn'.unlock_gil ≠ 0 → countBegin ops = countEnd ops → conn'.thrstate = NULL) ∧
    conn'.unlock_gil = conn.unlock_gil ∧
    (conn.unlock_gil = 0 → conn' = conn ∧ py' = py) ∧
    (∀ (c : pycbc_Connection) (p : PyRuntime), c.unlock_gil = 0 →
      PYCBC_CONN_THR_BEGIN b (c, p) = Except.ok (c, p) ∧
      PYCBC_CONN_THR_END b (c, p) = Except.ok (c, p)) := by
  obtain ⟨hc, hoff, hcnt, _⟩ :=
    thrRun_trace b ops (conn, py) (conn', py') (fun hne => absurd hidle hne) hrun
  simp only at hc hoff hcnt
  have hd : debt conn = 0 := debt_of_null conn hidle
  have hsame : conn'.unlock_gil = conn.unlock_gil := by rw [hc]
  refine ⟨?_, ?_, hsame, ?_, ?_⟩
  · intro ht
    by_cases hg : conn.unlock_gil = 0
    · have := hoff hg
      injection this with h1 _
      rw [h1] at ht
      exact absurd hidle ht
    · have := hcnt hg
      rw [hd, debt_of_held conn' ht] at this
      exact ⟨by rw [hsame]; exact hg, by omega⟩
  · intro hg heq
    rw [hsame] at hg
    have := hcnt hg
    rw [hd] at this
    by_contra ht
    rw [debt_of_held conn' ht] at this
    omega
  · intro hg
    have := hoff hg
    injection this with h1 h2
    exact ⟨h1, h2⟩
  · intro c p hg
    exact ⟨begin_gil_off b (c, p) hg, end_gil_off b (c, p) hg⟩

/-- Witness for C3: one `BEGIN` on the sample connection. -/
theorem token_held_only_during_release_witness :
    sampleConn.thrstate = NULL ∧
    thrRun buildDebug [ThrMacro.BEGIN] (sampleConn, samplePy) =
      Except.ok ({ sampleConn with thrstate := 777 },
        { tstate_current := NULL, events := [GilEvent.release 777] }) ∧
    (({ sampleConn with thrstate := 777 } : pycbc_Connection).thrstate ≠ NULL →
      ({ sampleConn with thrstate := 777 } : pycbc_Connection).unlock_gil ≠ 0 ∧
      countBegin [ThrMacro.BEGIN] = countEnd [ThrMacro.BEGIN] + 1) :=
  ⟨by decide, by rfl,
    (token_held_only_during_release buildDebug [ThrMacro.BEGIN] sampleConn
      { sampleConn with thrstate := 777 } samplePy
      { tstate_current := NULL, events := [GilEvent.release 777] }
      (by decide) (by rfl)).1⟩

/-- C9 (`BEGIN` then `END` is the identity on the connection). On a connection
with `unlock_gil` set and no thread state saved, used by a thread that holds
the GIL: `PYCBC_CONN_THR_BEGIN` returns, having saved the thread state that
`PyEval_SaveThread` handed out and changed no other field; the following
`PYCBC_CONN_THR_END` returns, having reacquired the GIL with exactly that
thread state, and the connection is the starting one again, `thrstate` being
`NULL`. -/
theorem begin_end_restores_saved_token (b : Build) (conn : pycbc_Connection) (py : PyRuntime)
    (hgil : conn.unlock_gil ≠ 0) (hidle : conn.thrstate = NULL)
    (hheld : py.tstate_current ≠ NULL) :
    ∃ mid : ThrState,
      PYCBC_CONN_THR_BEGIN b (conn, py) = Except.ok mid ∧
      mid.1 = { conn with thrstate := py.tstate_current } ∧
      mid.1.thrstate ≠ NULL ∧
      mid.2.events = py.events ++ [GilEvent.release mid.1.thrstate] ∧
      ∃ fin : ThrState,
        PYCBC_CONN_THR_END b mid = Except.ok fin ∧
        fin.2.events = mid.2.events ++ [GilEvent.reacquire mid.1.thrstate] ∧
        fin.2.tstate_current = py.tstate_current ∧
        fin.1.thrstate = NULL ∧
        fin.1 = conn := by
  obtain ⟨h1, h2⟩ := begin_then_end b conn py hgil hidle hheld
  exact ⟨_, h1, rfl, hheld, rfl, _, h2, by simp, rfl, hidle, rfl⟩

/-- Witness for C9: the sample connection and interpreter. -/
theorem begin_end_restores_saved_token_witness :
    sampleConn.unlock_gil ≠ 0 ∧ sampleConn.thrstate = NULL ∧
    samplePy.tstate_current ≠ NULL ∧
    ∃ mid : ThrState,
      PYCBC_CONN_THR_BEGIN buildPythonFirst (sampleConn, samplePy) = Except.ok mid ∧
      mid.1 = { sampleConn with thrstate := samplePy.tstate_current } ∧
      mid.1.thrstate ≠ NULL ∧
      mid.2.events = samplePy.events ++ [GilEvent.release mid.1.thrstate] ∧
      ∃ fin : ThrState,
        PYCBC_CONN_THR_END buildPythonFirst mid = Except.ok fin ∧
        fin.2.events = mid.2.events ++ [GilEvent.reacquire mid.1.thrstate] ∧
        fin.2.tstate_current = samplePy.tstate_current ∧
        fin.1.thrstate = NULL ∧
        fin.1 = sampleConn :=
  ⟨by decide, by decide, by decide,
    begin_end_restores_saved_token buildPythonFirst sampleConn samplePy (by decide) (by decide)
      (by decide)⟩

/-! ## Format flags: claims -/

theorem formatOf_eq_mod (w : Nat) : formatOf w = w % 8 := by
  have h := Nat.and_pow_two_sub_one_eq_mod w 3
  simpa [formatOf, PYCBC_FMT_MASK] using h

/-- C6 (format flags are a 3-bit field). The four formats have the values 0, 1,
2, 4 and the mask is 7; they are pairwise distinct and each is unchanged by the
mask; the format field of any flags word is below 8 and is the word modulo 8;
two flags words that agree on their low three bits have the same format
field, so a word `lo + 8 * hi` with `lo < 8` has format field `lo` for every
`hi`. Stated for all naturals, hence for all 32-bit words. -/
theorem format_flags_low_three_bits (w1 w2 : Nat) (hlow : w1 % 8 = w2 % 8) :
    (PYCBC_FMT_JSON = 0 ∧ PYCBC_FMT_PICKLE = 1 ∧ PYCBC_FMT_BYTES = 2 ∧
      PYCBC_FMT_UTF8 = 4 ∧ PYCBC_FMT_MASK = 7) ∧
    (PYCBC_FMT_JSON ≠ PYCBC_FMT_PICKLE ∧ PYCBC_FMT_JSON ≠ PYCBC_FMT_BYTES ∧
      PYCBC_FMT_JSON ≠ PYCBC_FMT_UTF8 ∧ PYCBC_FMT_PICKLE ≠ PYCBC_FMT_BYTES ∧
      PYCBC_FMT_PICKLE ≠ PYCBC_FMT_UTF8 ∧ PYCBC_FMT_BYTES ≠ PYCBC_FMT_UTF8) ∧
    (formatOf PYCBC_FMT_JSON = PYCBC_FMT_JSON ∧ formatOf PYCBC_FMT_PICKLE = PYCBC_FMT_PICKLE ∧
      formatOf PYCBC_FMT_BYTES = PYCBC_FMT_BYTES ∧ formatOf PYCBC_FMT_UTF8 = PYCBC_FMT_UTF8) ∧
    (formatOf w1 < 8 ∧ formatOf w1 = w1 % 8) ∧
    formatOf w1 = formatOf w2 ∧
    (∀ lo hi : Nat, lo < 8 → formatOf (lo + 8 * hi) = lo) := by
  refine ⟨by decide, by decide, by decide, ?_, ?_, ?_⟩
  · rw [formatOf_eq_mod]
    exact ⟨Nat.mod_lt _ (by decide), rfl⟩
  · rw [formatOf_eq_mod, formatOf_eq_mod, hlow]
  · intro lo hi hlo
    rw [formatOf_eq_mod]
    omega

/-- Witness for C6: the 32-bit words `0xFFFFFFFA` and `0x12345672` agree on
their low three bits (format field 2, `BYTES`). -/
theorem format_flags_low_three_bits_witness :
    0xFFFFFFFA % 8 = 0x12345672 % 8 ∧ formatOf 0xFFFFFFFA = formatOf 0x12345672 :=
  ⟨by decide, (format_flags_low_three_bits 0xFFFFFFFA 0x12345672 (by decide)).2.2.2.2.1⟩

/-! ## The raising macros: claims -/

/-- C7 (the four raisers specialise the one entry point). Whatever
`pycbc_exc_wrap_REAL` does, at every call site and for every status `err`:
`PYCBC_EXCTHROW_ARGS` and `PYCBC_EXCTHROW_EMPTYKEY` are `PYCBC_EXC_WRAP_EX` with
kind `PYCBC_EXC_ARGUMENTS`, status 0 and their own message;
`PYCBC_EXCTHROW_SCHED` and `PYCBC_EXCTHROW_WAIT` are `PYCBC_EXC_WRAP_EX` with
kind `PYCBC_EXC_LCBERR`, their own message and status `err`, and the parameter
block that reaches `pycbc_exc_wrap_REAL` has `err` in its `err` member. -/
theorem excthrow_specialises_wrap {α : Type}
    (real : Int → pycbc_exception_params → α) (file : String) (line : Int) (err : Int) :
    (PYCBC_EXCTHROW_ARGS real file line =
        PYCBC_EXC_WRAP_EX real file line PYCBC_EXC_ARGUMENTS 0 (some msg_ARGS) NULL NULL ∧
      PYCBC_EXCTHROW_ARGS real file line =
        real PYCBC_EXC_ARGUMENTS
          { file := some file, line := line, err := 0, msg := some msg_ARGS,
            key := NULL, result := NULL, all_results := NULL, objextra := NULL }) ∧
    (PYCBC_EXCTHROW_EMPTYKEY real file line =
        PYCBC_EXC_WRAP_EX real file line PYCBC_EXC_ARGUMENTS 0 (some msg_EMPTYKEY) NULL NULL ∧
      PYCBC_EXCTHROW_EMPTYKEY real file line =
        real PYCBC_EXC_ARGUMENTS
          { file := some file, line := line, err := 0, msg := some msg_EMPTYKEY,
            key := NULL, result := NULL, all_results := NULL, objextra := NULL }) ∧
    (PYCBC_EXCTHROW_SCHED real file line err =
        PYCBC_EXC_WRAP_EX real file line PYCBC_EXC_LCBERR err (some msg_SCHED) NULL NULL ∧
      PYCBC_EXCTHROW_SCHED real file line err =
        real PYCBC_EXC_LCBERR
          { file := some file, line := line, err := err, msg := some msg_SCHED,
            key := NULL, result := NULL, all_results := NULL, objextra := NULL }) ∧
    (PYCBC_EXCTHROW_WAIT real file line err =
        PYCBC_EXC_WRAP_EX real file line PYCBC_EXC_LCBERR err (some msg_WAIT) NULL NULL ∧
      PYCBC_EXCTHROW_WAIT real file line err =
        real PYCBC_EXC_LCBERR
          { file := some file, line := line, err := err, msg := some msg_WAIT,
            key := NULL, result := NULL, all_results := NULL, objextra := NULL }) ∧
    ((PYCBC_EXCTHROW_SCHED recordWrap file line err).2.err = err ∧
      (PYCBC_EXCTHROW_WAIT recordWrap file line err).2.err = err ∧
      (PYCBC_EXCTHROW_ARGS recordWrap file line).2.err = 0 ∧
      (PYCBC_EXCTHROW_EMPTYKEY recordWrap file line).2.err = 0) ∧
    (PYCBC_EXC_ARGUMENTS = 0 ∧ PYCBC_EXC_LCBERR = 2 ∧
      msg_ARGS = "Bad/insufficient arguments provided." ∧
      msg_EMPTYKEY = "Empty key (i.e. '', empty string) passed") :=
  ⟨⟨rfl, rfl⟩, ⟨rfl, rfl⟩, ⟨rfl, rfl⟩, ⟨rfl, rfl⟩, ⟨rfl, rfl, rfl, rfl⟩, ⟨rfl, rfl, rfl, rfl⟩⟩

/-- C10 (frame of the wrap macros). Whatever `pycbc_exc_wrap_REAL` does, the
parameter block `PYCBC_EXC_WRAP_EX` hands to it has `result` and `all_results`
`NULL` and carries the call site, status, message, key and extra object given;
`PYCBC_EXC_WRAP` has `key` and `objextra` `NULL` as well, `PYCBC_EXC_WRAP_KEY`
(and its alias `PYCBC_EXC_WRAP_VALUE`) differs from it in `key` only,
`PYCBC_EXC_WRAP_OBJ` in `objextra` only; the four
`PYCBC_EXCTHROW_*` raisers have all four object members `NULL`. -/
theorem wrap_macros_frame {α : Type}
    (real : Int → pycbc_exception_params → α) (file : String) (line : Int)
    (mode err : Int) (msg : Option String) (key obj : Ptr) :
    PYCBC_EXC_WRAP_EX real file line mode err msg key obj =
      real mode
        { file := some file, line := line, err := err, msg := msg,
          key := key, result := NULL, all_results := NULL, objextra := obj } ∧
    ((PYCBC_EXC_WRAP_EX recordWrap file line mode err msg key obj).2.result = NULL ∧
      (PYCBC_EXC_WRAP_EX recordWrap file line mode err msg key obj).2.all_results = NULL ∧
      (PYCBC_EXC_WRAP_EX recordWrap file line mode err msg key obj).2.err = err ∧
      (PYCBC_EXC_WRAP_EX recordWrap file line mode err msg key obj).2.msg = msg ∧
      (PYCBC_EXC_WRAP_EX recordWrap file line mode err msg key obj).1 = mode) ∧
    PYCBC_EXC_WRAP real file line mode err msg =
      real mode
        { file := some file, line := line, err := err, msg := msg,
          key := NULL, result := NULL, all_results := NULL, objextra := NULL } ∧
    PYCBC_EXC_WRAP_KEY real file line mode err msg key =
      real mode
        { file := some file, line := line, err := err, msg := msg,
          key := key, result := NULL, all_results := NULL, objextra := NULL } ∧
    PYCBC_EXC_WRAP_OBJ real file line mode err msg obj =
      real mode
        { file := some file, line := line, err := err, msg := msg,
          key := NULL, result := NULL, all_results := NULL, objextra := obj } ∧
    PYCBC_EXC_WRAP_VALUE real file line mode err msg key =
      PYCBC_EXC_WRAP_KEY real file line mode err msg key ∧
    [(PYCBC_EXCTHROW_ARGS recordWrap file line).2,
      (PYCBC_EXCTHROW_EMPTYKEY recordWrap file line).2,
      (PYCBC_EXCTHROW_SCHED recordWrap file line err).2,
      (PYCBC_EXCTHROW_WAIT recordWrap file line err).2].map
        (fun p => (p.key, p.result, p.all_results, p.objextra)) =
      [(NULL, NULL, NULL, NULL), (NULL, NULL, NULL, NULL),
       (NULL, NULL, NULL, NULL), (NULL, NULL, NULL, NULL)] :=
  ⟨rfl, ⟨rfl, rfl, rfl, rfl, rfl⟩, rfl, rfl, rfl, rfl, rfl⟩

/-! ## The multi-result aggregator: lemmas and claims -/

theorem dictGet_dictSet (d : List (Key × pycbc_Result)) (k k' : Key) (r : pycbc_Result) :
    dictGet (dictSet d k r) k' = if k = k' then some r else dictGet d k' := by
  induction d with
  | nil => simp [dictSet, dictGet]
  | cons e rest ih =>
    obtain ⟨k0, r0⟩ := e
    by_cases h0 : k0 = k
    · subst h0
      by_cases h1 : k0 = k' <;> simp [dictSet, dictGet, h1]
    · by_cases h1 : k0 = k'
      · subst h1
        have : ¬ k = k0 := fun h => h0 h.symm
        simp [dictSet, dictGet, h0, this]
      · simp [dictSet, dictGet, h0, h1, ih]

theorem insert_dict (agg : pycbc_MultiResult) (k : Key) (r : pycbc_Result) :
    (multiresult_insert agg k r).dict = dictSet agg.dict k r := by
  unfold multiresult_insert
  split_ifs <;> rfl

theorem insert_frame (agg : pycbc_MultiResult) (k : Key) (r : pycbc_Result) :
    (multiresult_insert agg k r).exceptions = agg.exceptions ∧
    (multiresult_insert agg k r).no_raise_enoent = agg.no_raise_enoent := by
  unfold multiresult_insert
  split_ifs <;> exact ⟨rfl, rfl⟩

theorem insert_success (agg : pycbc_MultiResult) (k : Key) (r : pycbc_Result)
    (h : r.rc = LCB_SUCCESS) :
    (multiresult_insert agg k r).errop = agg.errop ∧
    (multiresult_insert agg k r).all_ok = agg.all_ok := by
  simp [multiresult_insert, h]

theorem insert_suppressed (agg : pycbc_MultiResult) (k : Key) (r : pycbc_Result)
    (h : r.rc = LCB_KEY_ENOENT) (hs : agg.no_raise_enoent ≠ 0) :
    (multiresult_insert agg k r).errop = agg.errop ∧
    (multiresult_insert agg k r).all_ok = agg.all_ok := by
  simp [multiresult_insert, h, hs]

theorem insert_failure (agg : pycbc_MultiResult) (k : Key) (r : pycbc_Result)
    (h : r.rc ≠ LCB_SUCCESS) (hs : agg.no_raise_enoent = 0) :
    (multiresult_insert agg k r).errop =
      (match agg.errop with
        | none => some r
        | some first => some first) ∧
    (multiresult_insert agg k r).all_ok = 0 := by
  simp [multiresult_insert, h, hs]

theorem runBatch_cons (agg : pycbc_MultiResult) (c : Key × Int) (rest : List (Key × Int)) :
    runBatch agg (c :: rest) = runBatch (deliver agg c) rest := rfl

theorem runBatch_frame (batch : List (Key × Int)) :
    ∀ agg : pycbc_MultiResult,
      (runBatch agg batch).exceptions = agg.exceptions ∧
      (runBatch agg batch).no_raise_enoent = agg.no_raise_enoent := by
  induction batch with
  | nil => intro agg; exact ⟨rfl, rfl⟩
  | cons c rest ih =>
    intro agg
    rw [runBatch_cons]
    obtain ⟨h1, h2⟩ := ih (deliver agg c)
    obtain ⟨h3, h4⟩ := insert_frame agg c.1 { rc := c.2, key := c.1 }
    exact ⟨h1.trans h3, h2.trans h4⟩

/-- Once an operational error is recorded and `all_ok` is cleared, a batch
with suppression off keeps both. -/
theorem runBatch_keeps_errop (batch : List (Key × Int)) :
    ∀ (agg : pycbc_MultiResult) (e : pycbc_Result), agg.no_raise_enoent = 0 →
      agg.errop = some e → agg.all_ok = 0 →
      (runBatch agg batch).errop = some e ∧ (runBatch agg batch).all_ok = 0 := by
  induction batch with
  | nil => intro agg e _ he hok; exact ⟨he, hok⟩
  | cons c rest ih =>
    intro agg e hs he hok
    rw [runBatch_cons]
    have hs' : (deliver agg c).no_raise_enoent = 0 :=
      (insert_frame agg c.1 { rc := c.2, key := c.1 }).2.trans hs
    by_cases hc : c.2 = LCB_SUCCESS
    · obtain ⟨h3, h4⟩ := insert_success agg c.1 { rc := c.2, key := c.1 } hc
      exact ih (deliver agg c) e hs' (h3.trans he) (h4.trans hok)
    · obtain ⟨h3, h4⟩ := insert_failure agg c.1 { rc := c.2, key := c.1 } hc hs
      rw [he] at h3
      exact ih (deliver agg c) e hs' h3 h4

/-- With suppression off, the first failing completion becomes the operational
error. -/
theorem runBatch_first_failure (batch : List (Key × Int)) :
    ∀ (agg : pycbc_MultiResult) (c : Key × Int) (more : List (Key × Int)),
      agg.no_raise_enoent = 0 → agg.errop = none → failures batch = c :: more →
      (runBatch agg batch).errop = some { rc := c.2, key := c.1 } ∧
      (runBatch agg batch).all_ok = 0 := by
  induction batch with
  | nil => intro agg c more _ _ hf; simp [failures] at hf
  | cons d rest ih =>
    intro agg c more hs he hf
    rw [runBatch_cons]
    have hs' : (deliver agg d).no_raise_enoent = 0 :=
      (insert_frame agg d.1 { rc := d.2, key := d.1 }).2.trans hs
    by_cases hd : d.2 = LCB_SUCCESS
    · have hrest : failures rest = c :: more := by
        simpa [failures, List.filter_cons, hd] using hf
      obtain ⟨h3, _⟩ := insert_success agg d.1 { rc := d.2, key := d.1 } hd
      exact ih (deliver agg d) c more hs' (h3.trans he) hrest
    · have hdc : d = c := by
        simp only [failures, List.filter_cons, ne_eq, hd, not_false_eq_true, decide_True,
          if_true, List.cons.injEq] at hf
        exact hf.1
      subst hdc
      obtain ⟨h3, h4⟩ := insert_failure agg d.1 { rc := d.2, key := d.1 } hd hs
      rw [he] at h3
      exact runBatch_keeps_errop rest (deliver agg d) _ hs' h3 h4

/-- With suppression on, a batch whose failures are all not-found leaves
`errop` and `all_ok` alone. -/
theorem runBatch_suppressed (batch : List (Key × Int)) :
    ∀ agg : pycbc_MultiResult, agg.no_raise_enoent ≠ 0 →
      (∀ c ∈ batch, c.2 ≠ LCB_SUCCESS → c.2 = LCB_KEY_ENOENT) →
      (runBatch agg batch).errop = agg.errop ∧ (runBatch agg batch).all_ok = agg.all_ok := by
  induction batch with
  | nil => intro agg _ _; exact ⟨rfl, rfl⟩
  | cons c rest ih =>
    intro agg hs hall
    rw [runBatch_cons]
    have hs' : (deliver agg c).no_raise_enoent ≠ 0 := by
      rw [show (deliver agg c).no_raise_enoent = agg.no_raise_enoent from
        (insert_frame agg c.1 { rc := c.2, key := c.1 }).2]
      exact hs
    obtain ⟨h1, h2⟩ := ih (deliver agg c) hs'
      (fun d hd => hall d (List.mem_cons_of_mem c hd))
    by_cases hc : c.2 = LCB_SUCCESS
    · obtain ⟨h3, h4⟩ := insert_success agg c.1 { rc := c.2, key := c.1 } hc
      exact ⟨h1.trans h3, h2.trans h4⟩
    · have hen := hall c (List.mem_cons_self c rest) hc
      obtain ⟨h3, h4⟩ := insert_suppressed agg c.1 { rc := c.2, key := c.1 } hen hs
      exact ⟨h1.trans h3, h2.trans h4⟩

/-- Completions for other keys do not touch the entry of `k`. -/
theorem runBatch_dictGet_other (batch : List (Key × Int)) (k : Key) :
    ∀ agg : pycbc_MultiResult, k ∉ batch.map Prod.fst →
      dictGet (runBatch agg batch).dict k = dictGet agg.dict k := by
  induction batch with
  | nil => intro agg _; rfl
  | cons c rest ih =>
    intro agg hk
    simp only [List.map_cons, List.mem_cons, not_or] at hk
    rw [runBatch_cons, ih (deliver agg c) hk.2]
    simp only [deliver, insert_dict, dictGet_dictSet]
    rw [if_neg (fun h => hk.1 h.symm)]

/-- In a batch of distinct keys, the entry of a key is the Result of its
completion. -/
theorem runBatch_dictGet_mem (batch : List (Key × Int)) (k : Key) (rc : Int) :
    ∀ agg : pycbc_MultiResult, (batch.map Prod.fst).Nodup → (k, rc) ∈ batch →
      dictGet (runBatch agg batch).dict k = some { rc := rc, key := k } := by
  induction batch with
  | nil => intro agg _ hm; cases hm
  | cons c rest ih =>
    intro agg hnd hm
    simp only [List.map_cons, List.nodup_cons] at hnd
    rw [runBatch_cons]
    rcases List.mem_cons.mp hm with hc | hr
    · subst hc
      rw [runBatch_dictGet_other rest k (deliver agg (k, rc)) hnd.1]
      simp [deliver, insert_dict, dictGet_dictSet]
    · exact ih (deliver agg c) hnd.2 hr

theorem maybe_raise_ok_iff (self : pycbc_MultiResult) :
    pycbc_multiresult_maybe_raise self = Except.ok () ↔
      (self.exceptions = [] ∧ self.errop = none) := by
  unfold pycbc_multiresult_maybe_raise
  cases hx : self.exceptions with
  | cons first rest => simp
  | nil =>
    cases he : self.errop with
    | some res => simp
    | none => simp

theorem maybe_raise_error_iff (self : pycbc_MultiResult) :
    (∃ e, pycbc_multiresult_maybe_raise self = Except.error e) ↔
      (self.exceptions ≠ [] ∨ self.errop ≠ none) := by
  unfold pycbc_multiresult_maybe_raise
  cases hx : self.exceptions with
  | cons first rest => simp
  | nil =>
    cases he : self.errop with
    | some res => simp
    | none => simp

/-- C4 (the batch-completion gate). `pycbc_multiresult_maybe_raise` raises
exactly when the `exceptions` list is non-empty or `errop` is recorded, and
returns normally exactly when neither is the case. For an aggregator with no
fatal exception, no operational error and suppression off, and a batch of any
length in which exactly one completion `(k, rc)` has a failure status: after the
batch the gate raises, the implicated result of what it raises is the Result of
`k` with status `rc`, and `all_ok` is false. -/
theorem maybe_raise_single_failure (agg : pycbc_MultiResult) (batch : List (Key × Int))
    (k : Key) (rc : Int)
    (hfatal : agg.exceptions = []) (herr : agg.errop = none)
    (hsup : agg.no_raise_enoent = 0) (hone : failures batch = [(k, rc)]) :
    (∀ self : pycbc_MultiResult,
      ((∃ e, pycbc_multiresult_maybe_raise self = Except.error e) ↔
        (self.exceptions ≠ [] ∨ self.errop ≠ none)) ∧
      (pycbc_multiresult_maybe_raise self = Except.ok () ↔
        (self.exceptions = [] ∧ self.errop = none))) ∧
    pycbc_multiresult_maybe_raise (runBatch agg batch) =
      Except.error (RaisedError.operational { rc := rc, key := k }) ∧
    (runBatch agg batch).errop = some { rc := rc, key := k } ∧
    (runBatch agg batch).all_ok = 0 ∧
    rc ≠ LCB_SUCCESS := by
  obtain ⟨he, hok⟩ := runBatch_first_failure batch agg (k, rc) [] hsup herr hone
  have hx : (runBatch agg batch).exceptions = [] := (runBatch_frame batch agg).1.trans hfatal
  have hrc : rc ≠ LCB_SUCCESS := by
    have hm : (k, rc) ∈ failures batch := by rw [hone]; exact List.mem_singleton.mpr rfl
    have := (List.mem_filter.mp hm).2
    simpa using this
  refine ⟨fun self => ⟨maybe_raise_error_iff self, maybe_raise_ok_iff self⟩, ?_, he, hok, hrc⟩
  simp only at he
  simp only [pycbc_multiresult_maybe_raise, hx, he]

/-- Witness for C4: the example batch of the spec with suppression off. -/
theorem maybe_raise_single_failure_witness :
    (sampleAgg 0).exceptions = [] ∧ (sampleAgg 0).errop = none ∧
    (sampleAgg 0).no_raise_enoent = 0 ∧
    failures sampleBatch = [("missing", LCB_KEY_ENOENT)] ∧
    pycbc_multiresult_maybe_raise (runBatch (sampleAgg 0) sampleBatch) =
      Except.error (RaisedError.operational { rc := LCB_KEY_ENOENT, key := "missing" }) ∧
    (runBatch (sampleAgg 0) sampleBatch).all_ok = 0 :=
  ⟨rfl, rfl, rfl, by decide,
    (maybe_raise_single_failure (sampleAgg 0) sampleBatch "missing" LCB_KEY_ENOENT
      rfl rfl rfl (by decide)).2.1,
    (maybe_raise_single_failure (sampleAgg 0) sampleBatch "missing" LCB_KEY_ENOENT
      rfl rfl rfl (by decide)).2.2.2.1⟩

/-- C5 (suppressed not-found). For an aggregator with no fatal exception, no
operational error, `all_ok` true and suppression on, and a batch of distinct
keys whose only failing completion is `k` with the not-found status: after the
batch no operational error is recorded, `pycbc_multiresult_maybe_raise` returns
normally, `all_ok` is unchanged (still true), and the entry of `k` in the
aggregator is the Result of `k` with the not-found status. -/
theorem suppressed_not_found_is_quiet (agg : pycbc_MultiResult) (batch : List (Key × Int))
    (k : Key)
    (hfatal : agg.exceptions = []) (herr : agg.errop = none) (hok : agg.all_ok ≠ 0)
    (hsup : agg.no_raise_enoent ≠ 0)
    (hkeys : (batch.map Prod.fst).Nodup)
    (honly : failures batch = [(k, LCB_KEY_ENOENT)]) :
    (runBatch agg batch).errop = none ∧
    pycbc_multiresult_maybe_raise (runBatch agg batch) = Except.ok () ∧
    (runBatch agg batch).all_ok = agg.all_ok ∧
    (runBatch agg batch).all_ok ≠ 0 ∧
    dictGet (runBatch agg batch).dict k = some { rc := LCB_KEY_ENOENT, key := k } := by
  have hall : ∀ c ∈ batch, c.2 ≠ LCB_SUCCESS → c.2 = LCB_KEY_ENOENT := by
    intro c hc hne
    have hm : c ∈ failures batch := List.mem_filter.mpr ⟨hc, by simpa using hne⟩
    rw [honly] at hm
    rw [List.mem_singleton.mp hm]
  have hmem : (k, LCB_KEY_ENOENT) ∈ batch := by
    have hm : (k, LCB_KEY_ENOENT) ∈ failures batch := by
      rw [honly]; exact List.mem_singleton.mpr rfl
    exact (List.mem_filter.mp hm).1
  obtain ⟨he, ha⟩ := runBatch_suppressed batch agg hsup hall
  have hx : (runBatch agg batch).exceptions = [] := (runBatch_frame batch agg).1.trans hfatal
  refine ⟨he.trans herr, ?_, ha, by rw [ha]; exact hok,
    runBatch_dictGet_mem batch k LCB_KEY_ENOENT agg hkeys hmem⟩
  exact (maybe_raise_ok_iff _).mpr ⟨hx, he.trans herr⟩

/-- Witness for C5: the example batch of the spec with suppression on. -/
theorem suppressed_not_found_is_quiet_witness :
    (sampleAgg 1).exceptions = [] ∧ (sampleAgg 1).errop = none ∧
    (sampleAgg 1).all_ok ≠ 0 ∧ (sampleAgg 1).no_raise_enoent ≠ 0 ∧
    (sampleBatch.map Prod.fst).Nodup ∧
    failures sampleBatch = [("missing", LCB_KEY_ENOENT)] ∧
    ((runBatch (sampleAgg 1) sampleBatch).errop = none ∧
    pycbc_multiresult_maybe_raise (runBatch (sampleAgg 1) sampleBatch) = Except.ok () ∧
    (runBatch (sampleAgg 1) sampleBatch).all_ok = (sampleAgg 1).all_ok ∧
    (runBatch (sampleAgg 1) sampleBatch).all_ok ≠ 0 ∧
    dictGet (runBatch (sampleAgg 1) sampleBatch).dict "missing" =
      some { rc := LCB_KEY_ENOENT, key := "missing" }) :=
  ⟨rfl, rfl, by decide, by decide, by decide, by decide,
    suppressed_not_found_is_quiet (sampleAgg 1) sampleBatch "missing"
      rfl rfl (by decide) (by decide) (by decide) (by decide)⟩

/-! ## Printable-field masks: claims -/

/-- A mask contained in another has no field the other lacks. -/
theorem hasField_of_contained (a b f : Nat) (hab : a &&& b = a)
    (h : hasField a f = true) : hasField b f = true := by
  simp only [hasField, decide_eq_true_eq] at h ⊢
  intro hb
  apply h
  rw [← hab, Nat.land_assoc, hb, Nat.and_zero]

/-- C11 (the printable-field masks follow the result class hierarchy).
`PYCBC_RESULT_BASEFLDS` is contained in `PYCBC_OPRESULT_BASEFLDS`, which is
contained in `PYCBC_VALRESULT_BASEFLDS`, and `PYCBC_RESULT_BASEFLDS` is
contained in `PYCBC_HTRESULT_BASEFLDS`: every field flag `f` the smaller mask
has, the larger one has. `PYCBC_HTRESULT_BASEFLDS` has neither the CAS nor the
FLAGS field. The fields each mask selects are listed. The seven
`PYCBC_RESFLD_*` flags are the powers of two `2^0 .. 2^6`, pairwise without a
common bit. -/
theorem resfld_masks_follow_hierarchy (f : Nat) :
    (PYCBC_RESULT_BASEFLDS &&& PYCBC_OPRESULT_BASEFLDS = PYCBC_RESULT_BASEFLDS ∧
      (hasField PYCBC_RESULT_BASEFLDS f = true → hasField PYCBC_OPRESULT_BASEFLDS f = true)) ∧
    (PYCBC_OPRESULT_BASEFLDS &&& PYCBC_VALRESULT_BASEFLDS = PYCBC_OPRESULT_BASEFLDS ∧
      (hasField PYCBC_OPRESULT_BASEFLDS f = true →
        hasField PYCBC_VALRESULT_BASEFLDS f = true)) ∧
    (PYCBC_RESULT_BASEFLDS &&& PYCBC_HTRESULT_BASEFLDS = PYCBC_RESULT_BASEFLDS ∧
      (hasField PYCBC_RESULT_BASEFLDS f = true →
        hasField PYCBC_HTRESULT_BASEFLDS f = true) ∧
      hasField PYCBC_HTRESULT_BASEFLDS PYCBC_RESFLD_CAS = false ∧
      hasField PYCBC_HTRESULT_BASEFLDS PYCBC_RESFLD_FLAGS = false) ∧
    (fieldsOf PYCBC_RESULT_BASEFLDS = [PYCBC_RESFLD_RC] ∧
      fieldsOf PYCBC_OPRESULT_BASEFLDS =
        [PYCBC_RESFLD_RC, PYCBC_RESFLD_CAS, PYCBC_RESFLD_KEY] ∧
      fieldsOf PYCBC_VALRESULT_BASEFLDS =
        [PYCBC_RESFLD_RC, PYCBC_RESFLD_CAS, PYCBC_RESFLD_KEY, PYCBC_RESFLD_FLAGS,
         PYCBC_RESFLD_VALUE] ∧
      fieldsOf PYCBC_HTRESULT_BASEFLDS =
        [PYCBC_RESFLD_RC, PYCBC_RESFLD_HTCODE, PYCBC_RESFLD_VALUE, PYCBC_RESFLD_URL]) ∧
    (resfldAll = [2 ^ 0, 2 ^ 1, 2 ^ 2, 2 ^ 3, 2 ^ 4, 2 ^ 5, 2 ^ 6] ∧
      resfldAll.Pairwise (fun a b => a &&& b = 0)) := by
  have h1 : PYCBC_RESULT_BASEFLDS &&& PYCBC_OPRESULT_BASEFLDS = PYCBC_RESULT_BASEFLDS := by
    decide
  have h2 : PYCBC_OPRESULT_BASEFLDS &&& PYCBC_VALRESULT_BASEFLDS = PYCBC_OPRESULT_BASEFLDS := by
    decide
  have h3 : PYCBC_RESULT_BASEFLDS &&& PYCBC_HTRESULT_BASEFLDS = PYCBC_RESULT_BASEFLDS := by
    decide
  exact ⟨⟨h1, hasField_of_contained _ _ f h1⟩, ⟨h2, hasField_of_contained _ _ f h2⟩,
    ⟨h3, hasField_of_contained _ _ f h3, by decide, by decide⟩,
    ⟨by decide, by decide, by decide, by decide⟩, ⟨by decide, by decide⟩⟩

/-! ## HTTP result flags: claims -/

/-- Testing a single-bit flag reads that bit. -/
theorem htflags_test_two_pow (h i : Nat) : htflags_test h (2 ^ i) = h.testBit i := by
  unfold htflags_test
  cases hb : h.testBit i with
  | true =>
    simp only [decide_eq_true_eq]
    intro h0
    have : (h &&& 2 ^ i).testBit i = true := by
      rw [Nat.testBit_and, hb, Nat.testBit_two_pow_self]; rfl
    rw [h0, Nat.zero_testBit] at this
    cases this
  | false =>
    simp only [decide_eq_false_iff_not, not_not]
    apply Nat.eq_of_testBit_eq
    intro j
    rw [Nat.testBit_and, Nat.zero_testBit, Nat.testBit_two_pow]
    by_cases hij : i = j
    · subst hij; simp [hb]
    · simp [hij]

/-- Bits of the field after `htflags |= 2^j`. -/
theorem testBit_htflags_set (h j i : Nat) (hh : h < 2 ^ HTFLAGS_BITS) (hj : j < HTFLAGS_BITS) :
    (htflags_set h (2 ^ j)).testBit i = (h.testBit i || decide (j = i)) := by
  unfold htflags_set
  rw [Nat.testBit_mod_two_pow, Nat.testBit_or, Nat.testBit_two_pow]
  by_cases hi : i < HTFLAGS_BITS
  · simp [hi]
  · have hlt : h < 2 ^ i :=
      Nat.lt_of_lt_of_le hh (Nat.pow_le_pow_right (by decide) (Nat.le_of_not_lt hi))
    have hji : ¬ j = i := by omega
    simp [hi, Nat.testBit_lt_two_pow hlt, hji]

/-- Bits of the field after `htflags &= ~2^j`. -/
theorem testBit_htflags_clear (h j i : Nat) (hh : h < 2 ^ HTFLAGS_BITS) (hj : j < HTFLAGS_BITS) :
    (htflags_clear h (2 ^ j)).testBit i = (h.testBit i && !decide (j = i)) := by
  unfold htflags_clear
  have hpow : 2 ^ j < 2 ^ INT_BITS :=
    Nat.pow_lt_pow_right (by decide) (Nat.lt_trans hj (by decide))
  have hrew : 2 ^ INT_BITS - 1 - 2 ^ j = 2 ^ INT_BITS - (2 ^ j + 1) := by omega
  rw [hrew, Nat.testBit_mod_two_pow, Nat.testBit_and, Nat.testBit_two_pow_sub_succ hpow,
    Nat.testBit_two_pow]
  by_cases hi : i < HTFLAGS_BITS
  · have hi' : i < INT_BITS := Nat.lt_trans hi (by decide)
    simp [hi, hi']
  · have hlt : h < 2 ^ i :=
      Nat.lt_of_lt_of_le hh (Nat.pow_le_pow_right (by decide) (Nat.le_of_not_lt hi))
    simp [hi, Nat.testBit_lt_two_pow hlt]

theorem HtFlag.bit_eq_two_pow (f : HtFlag) : f.bit = 2 ^ f.pos := by
  cases f <;> rfl

theorem HtFlag.pos_lt (f : HtFlag) : f.pos < HTFLAGS_BITS := by
  cases f <;> decide

theorem HtFlag.pos_ne (f g : HtFlag) (h : g ≠ f) : f.pos ≠ g.pos := by
  cases f <;> cases g <;> first | exact absurd rfl h | decide

/-- C12 (the HTTP result flags form a bitset). `Chunked`, `Quiet`, `Complete` are
the single bits 1, 2, 4, each below `2^16`, pairwise without a common bit. For
every value `h` of the 16-bit `htflags` member and every flag `f`: after
`htflags |= f` and after `htflags &= ~f` the member is still a 16-bit value;
setting makes the test of `f` true and clearing makes it false; the test of any
other flag `g` is as before; and every bit of the member other than the bit of
`f` is as before. -/
theorem htflags_is_bitset (h : Nat) (hh : h < 2 ^ HTFLAGS_BITS) (f g : HtFlag) :
    (PYCBC_HTRES_F_CHUNKED = 1 ∧ PYCBC_HTRES_F_QUIET = 2 ∧ PYCBC_HTRES_F_COMPLETE = 4 ∧
      HTFLAGS_BITS = 16) ∧
    (f.bit = 2 ^ f.pos ∧ f.bit < 2 ^ HTFLAGS_BITS) ∧
    (g ≠ f → f.bit &&& g.bit = 0) ∧
    (htflags_set h f.bit < 2 ^ HTFLAGS_BITS ∧ htflags_clear h f.bit < 2 ^ HTFLAGS_BITS) ∧
    (htflags_test (htflags_set h f.bit) f.bit = true ∧
      htflags_test (htflags_clear h f.bit) f.bit = false) ∧
    (g ≠ f →
      htflags_test (htflags_set h f.bit) g.bit = htflags_test h g.bit ∧
      htflags_test (htflags_clear h f.bit) g.bit = htflags_test h g.bit) ∧
    (∀ i, i ≠ f.pos →
      (htflags_set h f.bit).testBit i = h.testBit i ∧
      (htflags_clear h f.bit).testBit i = h.testBit i) := by
  have hf := HtFlag.pos_lt f
  refine ⟨⟨rfl, rfl, rfl, rfl⟩, ⟨HtFlag.bit_eq_two_pow f, ?_⟩, ?_, ⟨?_, ?_⟩, ⟨?_, ?_⟩, ?_, ?_⟩
  · cases f <;> decide
  · intro hne
    cases f <;> cases g <;> first | exact absurd rfl hne | decide
  · exact Nat.mod_lt _ (Nat.two_pow_pos _)
  · exact Nat.mod_lt _ (Nat.two_pow_pos _)
  · rw [HtFlag.bit_eq_two_pow f, htflags_test_two_pow, testBit_htflags_set h _ _ hh hf]
    simp
  · rw [HtFlag.bit_eq_two_pow f, htflags_test_two_pow, testBit_htflags_clear h _ _ hh hf]
    simp
  · intro hne
    have hp := HtFlag.pos_ne f g hne
    rw [HtFlag.bit_eq_two_pow f, HtFlag.bit_eq_two_pow g, htflags_test_two_pow,
      htflags_test_two_pow, htflags_test_two_pow, testBit_htflags_set h _ _ hh hf,
      testBit_htflags_clear h _ _ hh hf]
    simp [hp]
  · intro i hi
    have hp : ¬ f.pos = i := fun e => hi e.symm
    rw [HtFlag.bit_eq_two_pow f, testBit_htflags_set h _ _ hh hf,
      testBit_htflags_clear h _ _ hh hf]
    simp [hp]

/-- Witness for C12: the member value `0xFFFD` (everything but `Quiet`), flag
`Quiet`, other flag `Complete`. -/
theorem htflags_is_bitset_witness :
    0xFFFD < 2 ^ HTFLAGS_BITS ∧
    htflags_test (htflags_set 0xFFFD HtFlag.Quiet.bit) HtFlag.Quiet.bit = true ∧
    htflags_test (htflags_clear 0xFFFD HtFlag.Quiet.bit) HtFlag.Quiet.bit = false ∧
    htflags_test (htflags_set 0xFFFD HtFlag.Quiet.bit) HtFlag.Complete.bit =
      htflags_test 0xFFFD HtFlag.Complete.bit :=
  ⟨by decide,
    (htflags_is_bitset 0xFFFD (by decide) HtFlag.Quiet HtFlag.Complete).2.2.2.2.1.1,
    (htflags_is_bitset 0xFFFD (by decide) HtFlag.Quiet HtFlag.Complete).2.2.2.2.1.2,
    ((htflags_is_bitset 0xFFFD (by decide) HtFlag.Quiet HtFlag.Complete).2.2.2.2.2.1
      (by decide)).1⟩

example : thrRun buildPythonFirst (sessionCalls 2) (sampleConn, samplePy) =
    Except.ok (sampleConn, { tstate_current := 777, events :=
      [GilEvent.release 777, GilEvent.reacquire 777,
       GilEvent.release 777, GilEvent.reacquire 777] }) := by rfl

example : thrRun buildHeaderFirst [ThrMacro.BEGIN, ThrMacro.BEGIN] (sampleConn, samplePy) =
    Except.error Fault.assertFailed := by rfl

example : thrRun buildPythonFirst [ThrMacro.BEGIN, ThrMacro.BEGIN] (sampleConn, samplePy) =
    Except.error Fault.pyFatal := by rfl


example : pycbc_multiresult_maybe_raise (runBatch (sampleAgg 0) sampleBatch) =
    Except.error (RaisedError.operational { rc := 13, key := "missing" }) := by rfl

example : (runBatch (sampleAgg 1) sampleBatch).all_ok = 1 := by rfl

example : dictGet (runBatch (sampleAgg 1) sampleBatch).dict "missing" =
    some { rc := 13, key := "missing" } := by decide

example : (Nesting.unit (Nesting.unit (Nesting.unit Nesting.done Nesting.done) Nesting.done)
    Nesting.done).expansions true =
    [ThrMacro.BEGIN, ThrMacro.END, ThrMacro.BEGIN, ThrMacro.END, ThrMacro.BEGIN,
     ThrMacro.END] := by decide

example : fieldsOf PYCBC_VALRESULT_BASEFLDS = [1, 2, 4, 8, 32] := by decide

example : htflags_clear (htflags_set 0xFFF8 PYCBC_HTRES_F_QUIET) PYCBC_HTRES_F_QUIET = 0xFFF8 := by
  decide

example : htflags_test (htflags_set 5 PYCBC_HTRES_F_QUIET) PYCBC_HTRES_F_QUIET = true := by decide

end Pycbc
